import Mathlib

/-!
Verification development for a Telegram task-reminder bot
(`bot.py` / `simple_bot.py`): a shallow embedding of its date/time
parser (`parse_datetime`) and of its SQLite-backed task store
(`add_task`, `get_tasks`, `get_task_by_id`, `delete_task`), together
with theorems about the behaviour of those functions.

Modelling conventions:
* Python strings are Lean `String`s; character-level work happens on
  `List Char`.  Only ASCII digits are modelled for numeric fields
  (Python's `\d` regex and `int()` additionally accept non-ASCII
  unicode digits; no claim depends on those).
* Python `int()` is modelled as: strip surrounding whitespace, an
  optional single sign, then a non-empty run of ASCII digits (the
  rarely-used underscore separators of Python 3.6+ are not modelled).
* The wall-clock instant that `datetime.now(tz)` returns inside
  `parse_datetime` is passed as an explicit `now` argument of the
  embedded function, so that the embedding is a pure function of the
  sampled instant.
* `datetime` values are records of numeric fields plus a fixed-offset
  timezone; `tz.localize` attaches the configured process-wide offset
  (the default configuration `Europe/Moscow`, a fixed `+03:00` zone).
* SQLite `TEXT` comparison (`datetime > ?`, `ORDER BY datetime`) is
  byte-wise; on UTF-8 data byte order equals code-point order, so it
  is modelled as the lexicographic order on the strings' `List Char`
  data.
-/

/-- Digit test for ASCII `0`-`9` (what `strptime`'s patterns use on the
tokens modelled here). -/
def isDigitCh (c : Char) : Bool := 48 ≤ c.toNat && c.toNat ≤ 57

/-- Numeric value of an ASCII digit character. -/
def dval (c : Char) : Nat := c.toNat - 48

/-- The normalisation `time_str.replace('.', ':')` applied to one
character. -/
def repCh (c : Char) : Char := if c.toNat = 46 then ':' else c

/-- Test for the colon character. -/
def isColonCh (c : Char) : Bool := c.toNat = 58

/-- Hour field of `strptime`'s `%H`: the ordered regex alternation
`2[0-3]|[0-1]\d|\d` — a two-digit value `00`-`23` when possible,
otherwise a single digit.  Returns the value and the unconsumed rest. -/
def parseHourField : List Char → Option (Nat × List Char)
  | c1 :: c2 :: rest =>
    if isDigitCh c1 && isDigitCh c2 && decide (10 * dval c1 + dval c2 ≤ 23) then
      some (10 * dval c1 + dval c2, rest)
    else if isDigitCh c1 then some (dval c1, c2 :: rest)
    else none
  | [c1] => if isDigitCh c1 then some (dval c1, []) else none
  | [] => none

/-- Minute field of `strptime`'s `%M`: the ordered regex alternation
`[0-5]\d|\d`. -/
def parseMinuteField : List Char → Option (Nat × List Char)
  | c1 :: c2 :: rest =>
    if isDigitCh c1 && isDigitCh c2 && decide (10 * dval c1 + dval c2 ≤ 59) then
      some (10 * dval c1 + dval c2, rest)
    else if isDigitCh c1 then some (dval c1, c2 :: rest)
    else none
  | [c1] => if isDigitCh c1 then some (dval c1, []) else none
  | [] => none

/-- A wall-clock time of day as produced by
`datetime.strptime(time_str, "%H:%M").time()`. -/
structure Tod where
  hour : Nat
  minute : Nat
deriving DecidableEq, Repr

/-- `datetime.strptime(s, "%H:%M")`: hour field, literal colon, minute
field, and the whole string must be consumed. -/
def strptimeHM (l : List Char) : Option Tod :=
  match parseHourField l with
  | none => none
  | some (h, rest) =>
    match rest with
    | c :: rest2 =>
      if isColonCh c then
        match parseMinuteField rest2 with
        | none => none
        | some (m, rest3) => if rest3.isEmpty then some ⟨h, m⟩ else none
      else none
    | [] => none

/-- The time-token normalisation of `parse_datetime`:
`time_str.replace('.', ':')`, then `+= ':00'` when no colon is
present. -/
def normTime (l : List Char) : List Char :=
  let l2 := l.map repCh
  if l2.any isColonCh then l2 else l2 ++ [':', '0', '0']

/-- The full time-token handling of `parse_datetime`: normalise, then
`strptime "%H:%M"`; `none` is the `ValueError` path. -/
def parseTimeToken (s : String) : Option Tod := strptimeHM (normTime s.data)

example : parseTimeToken "17.30" = some ⟨17, 30⟩ := by decide
example : parseTimeToken "9" = some ⟨9, 0⟩ := by decide
example : parseTimeToken "14.3" = some ⟨14, 3⟩ := by decide
example : parseTimeToken "25.61" = none := by decide
example : parseTimeToken "24.00" = none := by decide
example : parseTimeToken "17:30:00" = none := by decide
example : parseTimeToken "" = none := by decide

/-- Unicode whitespace stripped by Python's `str.strip()` (the subset
that can occur in the tokens modelled here). -/
def isSpaceCh (c : Char) : Bool :=
  c.toNat = 32 || c.toNat = 9 || c.toNat = 10 || c.toNat = 13 || c.toNat = 11 || c.toNat = 12

/-- Python `str.strip()`: drop whitespace from both ends. -/
def pyStrip (l : List Char) : List Char :=
  ((l.dropWhile isSpaceCh).reverse.dropWhile isSpaceCh).reverse

/-- Python `str.lower()` on one character, for the alphabets that occur
in the date tokens: ASCII `A`-`Z` and Cyrillic `А`-`Я`, `Ё`. -/
def lowerCh (c : Char) : Char :=
  if 65 ≤ c.toNat && c.toNat ≤ 90 then Char.ofNat (c.toNat + 32)
  else if 1040 ≤ c.toNat && c.toNat ≤ 1071 then Char.ofNat (c.toNat + 32)
  else if c.toNat = 1025 then Char.ofNat 1105
  else c

/-- The date-token normalisation `date_str.lower().strip()`. -/
def normDate (s : String) : List Char := pyStrip (s.data.map lowerCh)

/-- Key-by-key lookup in an association list (the membership test and
read of a Python dict). -/
def assocLookup : List (List Char × Nat) → List Char → Option Nat
  | [], _ => none
  | (k, v) :: rest, l => if l = k then some v else assocLookup rest l

/-- The `weekdays` dictionary of `parse_datetime`: Russian two-letter
abbreviations and full names, Monday = 0 .. Sunday = 6. -/
def weekdayPairs : List (List Char × Nat) :=
  [("пн".data, 0), ("понедельник".data, 0),
   ("вт".data, 1), ("вторник".data, 1),
   ("ср".data, 2), ("среда".data, 2),
   ("чт".data, 3), ("четверг".data, 3),
   ("пт".data, 4), ("пятница".data, 4),
   ("сб".data, 5), ("суббота".data, 5),
   ("вс".data, 6), ("воскресенье".data, 6)]

/-- `date_str in weekdays` / `weekdays[date_str]` from the source. -/
def wdLookup (l : List Char) : Option Nat := assocLookup weekdayPairs l

/-- A calendar date, the result of `.date()` in the source. -/
structure Date where
  year : Nat
  month : Nat
  day : Nat
deriving DecidableEq, Repr

/-- Gregorian leap-year rule, as used by Python's `datetime`. -/
def isLeap (y : Nat) : Bool := (y % 4 = 0 && y % 100 ≠ 0) || y % 400 = 0

/-- Length of a month in Python's `datetime` calendar. -/
def daysInMonth (y m : Nat) : Nat :=
  if m = 1 || m = 3 || m = 5 || m = 7 || m = 8 || m = 10 || m = 12 then 31
  else if m = 4 || m = 6 || m = 9 || m = 11 then 30
  else if m = 2 then (if isLeap y then 29 else 28)
  else 0

/-- Sakamoto month offsets for the day-of-week computation. -/
def sakamotoOffset (m : Nat) : Nat :=
  match m with
  | 1 => 0 | 2 => 3 | 3 => 2 | 4 => 5 | 5 => 0 | 6 => 3
  | 7 => 5 | 8 => 1 | 9 => 4 | 10 => 6 | 11 => 2 | 12 => 4
  | _ => 0

/-- Python's `date.weekday()`: Monday = 0 .. Sunday = 6, via Sakamoto's
algorithm (shifted so that Monday is 0). -/
def pyWeekday (y m d : Nat) : Nat :=
  let y2 := if m < 3 then y - 1 else y
  (y2 + y2 / 4 - y2 / 100 + y2 / 400 + sakamotoOffset m + d + 6) % 7

example : pyWeekday 2024 1 15 = 0 := by decide
example : pyWeekday 2024 1 10 = 2 := by decide
example : pyWeekday 2024 12 15 = 6 := by decide

/-- Calendar successor of a date (what adding `timedelta(days=1)` does
to the date component). -/
def nextDay (d : Date) : Date :=
  if d.day < daysInMonth d.year d.month then ⟨d.year, d.month, d.day + 1⟩
  else if d.month < 12 then ⟨d.year, d.month + 1, 1⟩
  else ⟨d.year + 1, 1, 1⟩

/-- Adding `timedelta(days=n)` to a date: `n` calendar successors. -/
def addDays (d : Date) : Nat → Date
  | 0 => d
  | n + 1 => addDays (nextDay d) n

example : addDays ⟨2024, 1, 10⟩ 5 = ⟨2024, 1, 15⟩ := by decide
example : addDays ⟨2024, 12, 30⟩ 3 = ⟨2025, 1, 2⟩ := by decide
example : addDays ⟨2024, 2, 28⟩ 1 = ⟨2024, 2, 29⟩ := by decide

/-- Strict chronological order on calendar dates (lexicographic on
year, month, day). -/
def dateLt (a b : Date) : Prop :=
  a.year < b.year ∨ (a.year = b.year ∧ (a.month < b.month ∨ (a.month = b.month ∧ a.day < b.day)))

instance : DecidablePred fun p : Date × Date => dateLt p.1 p.2 := by
  intro p; unfold dateLt; infer_instance

instance (a b : Date) : Decidable (dateLt a b) := by unfold dateLt; infer_instance

/-- Python `str.split('.')`: split on every dot. -/
def splitDot : List Char → List (List Char)
  | [] => [[]]
  | c :: rest =>
    match splitDot rest with
    | [] => [[]]
    | h :: t => if c = '.' then [] :: h :: t else (c :: h) :: t

example : splitDot "9.12".data = ["9".data, "12".data] := by decide
example : splitDot "9..12".data = ["9".data, [], "12".data] := by decide
example : splitDot "912".data = ["912".data] := by decide

/-- A non-empty run of ASCII digits, read as a number. -/
def digitsToNat (l : List Char) : Option Nat :=
  if l.isEmpty then none
  else if l.all isDigitCh then some (l.foldl (fun a c => 10 * a + dval c) 0)
  else none

/-- Python `int(s)` on a string: strip whitespace, optional single
sign, non-empty digit run. -/
def pyInt (l : List Char) : Option Int :=
  match pyStrip l with
  | [] => none
  | c :: rest =>
    if c = '+' then (digitsToNat rest).map Int.ofNat
    else if c = '-' then (digitsToNat rest).map fun n => -(n : Int)
    else (digitsToNat (c :: rest)).map Int.ofNat

example : pyInt " 12 ".data = some 12 := by decide
example : pyInt "012".data = some 12 := by decide
example : pyInt "+9".data = some 9 := by decide
example : pyInt "-5".data = some (-5) := by decide
example : pyInt "1x".data = none := by decide
example : pyInt "".data = none := by decide
example : pyInt "+".data = none := by decide

/-- A timezone-aware `datetime` value with a fixed offset
(`±HH:MM`). -/
structure PyDateTime where
  year : Nat
  month : Nat
  day : Nat
  hour : Nat
  minute : Nat
  second : Nat
  offNeg : Bool
  offH : Nat
  offM : Nat
deriving DecidableEq, Repr

/-- Sign of the configured process-wide timezone offset (the default
configuration `Europe/Moscow` is the fixed zone `+03:00`). -/
def tzOffNeg : Bool := false

/-- Hours of the configured timezone offset. -/
def tzOffH : Nat := 3

/-- Minutes of the configured timezone offset. -/
def tzOffM : Nat := 0

/-- The year-inference step of the `D.M` branch of `parse_datetime`:
`year = now.year`, advanced by one when
`month < now.month or (month == now.month and day < now.day)`. -/
def yearInfer (nowYear nowMonth nowDay : Nat) (d m : Int) : Nat :=
  if m < (nowMonth : Int) ∨ (m = (nowMonth : Int) ∧ d < (nowDay : Int)) then nowYear + 1
  else nowYear

/-- The `D.M` branch of `parse_datetime`: split the token on dots into
exactly a day and a month part, read each with `int()`, infer the
year, and build `datetime(year, month, day).date()` — whose
constructor rejects out-of-range fields (`MINYEAR = 1`,
`MAXYEAR = 9999`). -/
def dotDateResolve (nowYear nowMonth nowDay : Nat) (l : List Char) : Option Date :=
  match splitDot l with
  | [dpart, mpart] =>
    match pyInt dpart, pyInt mpart with
    | some d, some m =>
      let y := yearInfer nowYear nowMonth nowDay d m
      if 1 ≤ y ∧ y ≤ 9999 ∧ 1 ≤ m ∧ m ≤ 12 ∧ 1 ≤ d ∧ d ≤ (daysInMonth y m.toNat : Int) then
        some ⟨y, m.toNat, d.toNat⟩
      else none
    | _, _ => none
  | _ => none

/-- The `days_ahead` computation of the weekday branch:
`days_ahead = target_weekday - now.weekday()`, plus 7 when the
difference is `<= 0`. -/
def daysAheadFn (targetWeekday nowWeekday : Nat) : Nat :=
  (if (targetWeekday : Int) - (nowWeekday : Int) ≤ 0
   then (targetWeekday : Int) - (nowWeekday : Int) + 7
   else (targetWeekday : Int) - (nowWeekday : Int)).toNat

/-- Shallow embedding of `parse_datetime(date_str, time_str)` from
`bot.py` / `simple_bot.py`.  `now` is the instant the source obtains
from `datetime.now(tz)` at invocation time, passed explicitly here.
`none` is the `ValueError` (invalid format) path; `some` carries the
`tz.localize(datetime.combine(target_date, time_obj))` result.  In the
weekday branch, `now + timedelta(days=days_ahead)` raises
`OverflowError` when the result would pass `MAXYEAR` 9999; the outer
`except Exception` re-raises that as the same `ValueError`, so it is
a `none` here too. -/
def parse_datetime (now : PyDateTime) (date_str time_str : String) : Option PyDateTime :=
  match parseTimeToken time_str with
  | none => none
  | some tm =>
    let ds := normDate date_str
    match wdLookup ds with
    | some targetWeekday =>
      let k := daysAheadFn targetWeekday (pyWeekday now.year now.month now.day)
      let td := addDays ⟨now.year, now.month, now.day⟩ k
      if td.year ≤ 9999 then
        some ⟨td.year, td.month, td.day, tm.hour, tm.minute, 0, tzOffNeg, tzOffH, tzOffM⟩
      else none
    | none =>
      if ds.contains '.' then
        match dotDateResolve now.year now.month now.day ds with
        | some td => some ⟨td.year, td.month, td.day, tm.hour, tm.minute, 0, tzOffNeg, tzOffH, tzOffM⟩
        | none => none
      else none

/-- The reference instant used by the concrete scenarios below:
Wednesday 2024-01-10 10:00 in the configured zone. -/
def refInstant : PyDateTime := ⟨2024, 1, 10, 10, 0, 0, false, 3, 0⟩

example : parse_datetime refInstant "пн" "14.30" =
    some ⟨2024, 1, 15, 14, 30, 0, false, 3, 0⟩ := by decide
example : parse_datetime refInstant "ПН" "14.30" =
    some ⟨2024, 1, 15, 14, 30, 0, false, 3, 0⟩ := by decide
example : parse_datetime refInstant "9.12" "9.00" =
    some ⟨2024, 12, 9, 9, 0, 0, false, 3, 0⟩ := by decide
example : parse_datetime ⟨2024, 12, 15, 10, 0, 0, false, 3, 0⟩ "9.12" "9.00" =
    some ⟨2025, 12, 9, 9, 0, 0, false, 3, 0⟩ := by decide
example : parse_datetime refInstant "31.2" "9.00" = none := by decide
example : parse_datetime refInstant "пн" "25.61" = none := by decide
example : parse_datetime refInstant "zzz" "9.00" = none := by decide
example : parse_datetime refInstant "9.012" "9.00" =
    some ⟨2024, 12, 9, 9, 0, 0, false, 3, 0⟩ := by decide

/-- A row of the `tasks` table. -/
structure TaskRow where
  id : Nat
  user_id : Nat
  description : String
  datetime : String
  google_event_id : Option String
deriving DecidableEq, Repr

/-- The persisted store: the `tasks` table plus the next
`AUTOINCREMENT` id. -/
structure Db where
  rows : List TaskRow
  nextId : Nat
deriving DecidableEq, Repr

/-- The owner-scoped row match `WHERE id=? AND user_id=?`. -/
def rowMatch (taskId userId : Nat) (r : TaskRow) : Bool :=
  r.id == taskId && r.user_id == userId

/-- `add_task(user_id, description, task_datetime, google_event_id)`:
`INSERT INTO tasks ...` returning `cursor.lastrowid`. -/
def add_task (userId : Nat) (description dtStr : String) (googleEventId : Option String)
    (db : Db) : Nat × Db :=
  (db.nextId,
   ⟨db.rows ++ [⟨db.nextId, userId, description, dtStr, googleEventId⟩], db.nextId + 1⟩)

/-- `get_task_by_id(task_id, user_id)`:
`SELECT ... WHERE id=? AND user_id=?` with `fetchone()`. -/
def get_task_by_id (taskId userId : Nat) (db : Db) : Option TaskRow :=
  db.rows.find? (rowMatch taskId userId)

/-- The comparison relation of `ORDER BY datetime`: SQLite `TEXT`
comparison is byte-wise, which on UTF-8 data is exactly the
lexicographic order on the character lists. -/
def dtLe (a b : TaskRow) : Prop := a.datetime.data ≤ b.datetime.data

instance : DecidableRel dtLe := fun a b =>
  inferInstanceAs (Decidable (a.datetime.data ≤ b.datetime.data))

instance : IsTotal TaskRow dtLe := ⟨fun a b => le_total a.datetime.data b.datetime.data⟩

instance : IsTrans TaskRow dtLe := ⟨fun _ _ _ h1 h2 => le_trans h1 h2⟩

/-- `get_tasks(user_id)`:
`SELECT ... WHERE user_id=? AND datetime > ? ORDER BY datetime`.  The
comparison value (`datetime.now().isoformat()` in the source) is the
explicit `asOf` argument; `datetime > ?` is byte-wise `TEXT`
comparison. -/
def get_tasks (userId : Nat) (asOf : String) (db : Db) : List TaskRow :=
  List.insertionSort dtLe
    (db.rows.filter fun r => r.user_id == userId && decide (asOf.data < r.datetime.data))

/-- `delete_task(task_id, user_id)` from `simple_bot.py`: read the
matching row's `google_event_id`, run
`DELETE FROM tasks WHERE id=? AND user_id=?` and commit, then call
`delete_google_event` on the mirror (whose Boolean outcome, the
`mirrorOk` argument here, is discarded), and return `True`
unconditionally. -/
def delete_task (mirrorOk : Bool) (taskId userId : Nat) (db : Db) : Db × Bool :=
  let found := db.rows.find? (rowMatch taskId userId)
  let googleEventId := found.bind fun r => r.google_event_id
  let db2 : Db := ⟨db.rows.filter fun r => !rowMatch taskId userId r, db.nextId⟩
  let mirrorResult := if googleEventId.isSome then mirrorOk else false
  let _ := mirrorResult
  (db2, true)

/-- The `/add` flow of `simple_bot.py` around the store: the Calendar
Mirror is invoked first and yields `some eventId` on success or `none`
on any failure (`create_google_event` catches every exception and
returns `None`); the local insert then happens regardless. -/
def add_flow (mirrorOutcome : Option String) (userId : Nat) (description dtStr : String)
    (db : Db) : Nat × Db :=
  add_task userId description dtStr mirrorOutcome db

/-- Two-digit zero-padded decimal rendering (`%02d`), for field values
below 100. -/
def pad2 (n : Nat) : List Char := [Char.ofNat (48 + n / 10), Char.ofNat (48 + n % 10)]

/-- Four-digit zero-padded decimal rendering (`%04d`), for field
values below 10000. -/
def pad4 (n : Nat) : List Char :=
  [Char.ofNat (48 + n / 1000), Char.ofNat (48 + n / 100 % 10),
   Char.ofNat (48 + n / 10 % 10), Char.ofNat (48 + n % 10)]

/-- Python `datetime.isoformat()` for an aware value with zero
microseconds: `YYYY-MM-DDTHH:MM:SS±HH:MM`. -/
def isoformat (dt : PyDateTime) : String :=
  ⟨pad4 dt.year ++ '-' :: pad2 dt.month ++ '-' :: pad2 dt.day ++
   'T' :: pad2 dt.hour ++ ':' :: pad2 dt.minute ++ ':' :: pad2 dt.second ++
   (if dt.offNeg then '-' else '+') :: pad2 dt.offH ++ ':' :: pad2 dt.offM⟩

example : isoformat ⟨2024, 1, 15, 14, 30, 0, false, 3, 0⟩ = "2024-01-15T14:30:00+03:00" := by
  decide

/-- Python `datetime.fromisoformat` restricted to the exact shape
`isoformat` emits. -/
def fromisoformat (s : String) : Option PyDateTime :=
  match s.data with
  | [y1, y2, y3, y4, s1, mo1, mo2, s2, d1, d2, s3, h1, h2, s4, mi1, mi2, s5, se1, se2,
     sg, o1, o2, s6, o3, o4] =>
    if isDigitCh y1 && isDigitCh y2 && isDigitCh y3 && isDigitCh y4 &&
       isDigitCh mo1 && isDigitCh mo2 && isDigitCh d1 && isDigitCh d2 &&
       isDigitCh h1 && isDigitCh h2 && isDigitCh mi1 && isDigitCh mi2 &&
       isDigitCh se1 && isDigitCh se2 && isDigitCh o1 && isDigitCh o2 &&
       isDigitCh o3 && isDigitCh o4 &&
       s1 == '-' && s2 == '-' && s3 == 'T' && s4 == ':' && s5 == ':' && s6 == ':' &&
       (sg == '+' || sg == '-') then
      some ⟨((dval y1 * 10 + dval y2) * 10 + dval y3) * 10 + dval y4,
            dval mo1 * 10 + dval mo2, dval d1 * 10 + dval d2,
            dval h1 * 10 + dval h2, dval mi1 * 10 + dval mi2, dval se1 * 10 + dval se2,
            sg == '-', dval o1 * 10 + dval o2, dval o3 * 10 + dval o4⟩
    else none
  | _ => none

example : fromisoformat "2024-01-15T14:30:00+03:00" =
    some ⟨2024, 1, 15, 14, 30, 0, false, 3, 0⟩ := by decide

/-- Test for the literal dot character. -/
def isDotCh (c : Char) : Bool := c.toNat = 46

/-- Test for a time separator: a literal dot or a literal colon. -/
def isSepCh (c : Char) : Bool := c.toNat = 46 || c.toNat = 58

/-- Modelled from the spec's words: the `D.M` date-token grammar of
§4.1 — a day of 1-2 digits, a literal dot, a month of 1-2 digits. -/
def specDMGrammar (l : List Char) : Bool :=
  match l with
  | [a, s, b] => isDigitCh a && isDotCh s && isDigitCh b
  | [a, b, c, d] =>
    (isDigitCh a && isDotCh b && isDigitCh c && isDigitCh d) ||
    (isDigitCh a && isDigitCh b && isDotCh c && isDigitCh d)
  | [a, b, s, c, d] => isDigitCh a && isDigitCh b && isDotCh s && isDigitCh c && isDigitCh d
  | _ => false

example : specDMGrammar "9.12".data = true := by decide
example : specDMGrammar "31.2".data = true := by decide
example : specDMGrammar "9.012".data = false := by decide

/-- Modelled from the spec's words: the time-token grammar — a 1-2
digit hour below 24, optionally followed by a `.` or `:` separator and
a 1-2 digit minute below 60 (the minute may be a single digit, cf.
C10). -/
def specTimeGrammar (l : List Char) : Bool :=
  match l with
  | [a] => isDigitCh a
  | [a, b] => isDigitCh a && isDigitCh b && decide (10 * dval a + dval b ≤ 23)
  | [a, s, b] => isDigitCh a && isSepCh s && isDigitCh b
  | [a, b, c, d] =>
    (isDigitCh a && isSepCh b && isDigitCh c && isDigitCh d &&
       decide (10 * dval c + dval d ≤ 59)) ||
    (isDigitCh a && isDigitCh b && decide (10 * dval a + dval b ≤ 23) &&
       isSepCh c && isDigitCh d)
  | [a, b, s, c, d] =>
    isDigitCh a && isDigitCh b && decide (10 * dval a + dval b ≤ 23) &&
    isSepCh s && isDigitCh c && isDigitCh d &&
    decide (10 * dval c + dval d ≤ 59)
  | _ => false

/-- The date-token acceptance condition of `parse_datetime`: the
normalised token is a weekday name whose 1-7 day advance stays within
`datetime`'s range (the addition overflows past `MAXYEAR` 9999
otherwise), or the token contains a dot and survives the `D.M`
branch. -/
def dateTokenAccepted (now : PyDateTime) (date_str : String) : Bool :=
  let ds := normDate date_str
  match wdLookup ds with
  | some targetWeekday =>
    decide ((addDays ⟨now.year, now.month, now.day⟩
      (daysAheadFn targetWeekday (pyWeekday now.year now.month now.day))).year ≤ 9999)
  | none => ds.contains '.' && (dotDateResolve now.year now.month now.day ds).isSome

/-- A successful association-list lookup pairs the queried key with a
value stored in the list. -/
theorem assocLookup_mem {ps : List (List Char × Nat)} {l : List Char} {w : Nat}
    (h : assocLookup ps l = some w) : (l, w) ∈ ps := by
  induction ps with
  | nil => exact Option.noConfusion h
  | cons p rest ih =>
    obtain ⟨k, v⟩ := p
    unfold assocLookup at h
    by_cases hk : l = k
    · rw [if_pos hk] at h
      injection h with h2
      subst hk; subst h2
      exact List.mem_cons_self _ _
    · rw [if_neg hk] at h
      exact List.mem_cons_of_mem _ (ih h)

/-- Every value in the `weekdays` dictionary is between 0 and 6. -/
theorem wdLookup_le_six {l : List Char} {w : Nat} (h : wdLookup l = some w) : w ≤ 6 := by
  have hm := assocLookup_mem h
  simp only [weekdayPairs, List.mem_cons, List.not_mem_nil, or_false, Prod.mk.injEq] at hm
  rcases hm with ⟨_, h2⟩ | ⟨_, h2⟩ | ⟨_, h2⟩ | ⟨_, h2⟩ | ⟨_, h2⟩ | ⟨_, h2⟩ | ⟨_, h2⟩ |
    ⟨_, h2⟩ | ⟨_, h2⟩ | ⟨_, h2⟩ | ⟨_, h2⟩ | ⟨_, h2⟩ | ⟨_, h2⟩ | ⟨_, h2⟩ <;> omega

/-- No key of the `weekdays` dictionary contains a dot. -/
theorem wdLookup_no_dot {l : List Char} {w : Nat} (h : wdLookup l = some w) :
    l.contains '.' = false := by
  have hm := assocLookup_mem h
  simp only [weekdayPairs, List.mem_cons, List.not_mem_nil, or_false, Prod.mk.injEq] at hm
  rcases hm with ⟨h1, _⟩ | ⟨h1, _⟩ | ⟨h1, _⟩ | ⟨h1, _⟩ | ⟨h1, _⟩ | ⟨h1, _⟩ | ⟨h1, _⟩ |
    ⟨h1, _⟩ | ⟨h1, _⟩ | ⟨h1, _⟩ | ⟨h1, _⟩ | ⟨h1, _⟩ | ⟨h1, _⟩ | ⟨h1, _⟩ <;> rw [h1] <;> decide

/-- `date.weekday()` is always between 0 and 6. -/
theorem pyWeekday_lt_seven (y m d : Nat) : pyWeekday y m d < 7 := by
  unfold pyWeekday
  exact Nat.mod_lt _ (by decide)

/-- `days_ahead` is always between 1 and 7 when the target weekday is
between 0 and 6 and the reference weekday is as `date.weekday()`
returns it. -/
theorem daysAheadFn_bounds {tw wd : Nat} (htw : tw ≤ 6) (hwd : wd < 7) :
    1 ≤ daysAheadFn tw wd ∧ daysAheadFn tw wd ≤ 7 := by
  unfold daysAheadFn
  split_ifs with h <;> omega

/-- The calendar successor is strictly later in chronological order. -/
theorem dateLt_nextDay (d : Date) : dateLt d (nextDay d) := by
  unfold nextDay dateLt
  split_ifs <;> simp

/-- Chronological order on dates is transitive. -/
theorem dateLt_trans {a b c : Date} (h1 : dateLt a b) (h2 : dateLt b c) : dateLt a c := by
  unfold dateLt at *
  omega

/-- Moving a date forward by at least one day lands strictly later in
chronological order. -/
theorem dateLt_addDays (d : Date) : ∀ n : Nat, 1 ≤ n → dateLt d (addDays d n) := by
  intro n
  induction n generalizing d with
  | zero => omega
  | succ k ih =>
    intro _
    show dateLt d (addDays (nextDay d) k)
    rcases Nat.eq_zero_or_pos k with hk | hk
    · subst hk; exact dateLt_nextDay d
    · exact dateLt_trans (dateLt_nextDay d) (ih (nextDay d) hk)

/-- C1 counterexample: the claim quantifies over every reference
instant, but at the reference date 9999-12-28 (a Tuesday) the token
`пн` resolves six days ahead to 10000-01-03, past `datetime.MAXYEAR`:
`now + timedelta(days=6)` raises `OverflowError` and the call fails
with `InvalidFormat` instead of returning a date — even though the
weekday token and the time token are both valid. -/
theorem claim_c1_overflow_counterexample :
    parse_datetime ⟨9999, 12, 28, 10, 0, 0, false, 3, 0⟩ "пн" "14.30" = none ∧
    wdLookup (normDate "пн") = some 0 ∧
    parseTimeToken "14.30" = some ⟨14, 30⟩ ∧
    addDays ⟨9999, 12, 28⟩ (daysAheadFn 0 (pyWeekday 9999 12 28)) = ⟨10000, 1, 3⟩ := by
  decide

example : dateTokenAccepted ⟨9999, 12, 28, 10, 0, 0, false, 3, 0⟩ "пн" = false := by decide
example : parse_datetime ⟨9999, 12, 20, 10, 0, 0, false, 3, 0⟩ "вт" "14.30" =
    some ⟨9999, 12, 21, 14, 30, 0, false, 3, 0⟩ := by decide

/-- C1 (amended): for every valid weekday token (two-letter
abbreviation or full name, case-insensitive, Monday=0..Sunday=6) and
every reference instant whose 1-7 day advance stays within
`datetime`'s range (resolved year at most 9999), `parse_datetime`
returns a date strictly after the reference date and at most 7 days
ahead, computed as `days_ahead = target_weekday - reference_weekday`
with 7 added when that difference is `<= 0`; the resolved date is
never the reference date.  When the advance would pass 9999-12-31 the
addition overflows and the call fails with `InvalidFormat` instead. -/
theorem claim_c1_weekday_next_occurrence
    (now : PyDateTime) (date_str time_str : String) (tw : Nat) (tm : Tod)
    (hwd : wdLookup (normDate date_str) = some tw)
    (ht : parseTimeToken time_str = some tm)
    (hrange : (addDays ⟨now.year, now.month, now.day⟩
        (daysAheadFn tw (pyWeekday now.year now.month now.day))).year ≤ 9999) :
    ∃ r : PyDateTime,
      parse_datetime now date_str time_str = some r ∧
      (⟨r.year, r.month, r.day⟩ : Date) =
        addDays ⟨now.year, now.month, now.day⟩
          (daysAheadFn tw (pyWeekday now.year now.month now.day)) ∧
      1 ≤ daysAheadFn tw (pyWeekday now.year now.month now.day) ∧
      daysAheadFn tw (pyWeekday now.year now.month now.day) ≤ 7 ∧
      dateLt ⟨now.year, now.month, now.day⟩ ⟨r.year, r.month, r.day⟩ ∧
      r.hour = tm.hour ∧ r.minute = tm.minute := by
  have hb := daysAheadFn_bounds (wdLookup_le_six hwd)
    (pyWeekday_lt_seven now.year now.month now.day)
  unfold parse_datetime
  rw [ht]
  simp only [hwd]
  rw [if_pos hrange]
  refine ⟨_, rfl, rfl, hb.1, hb.2, ?_, rfl, rfl⟩
  exact dateLt_addDays _ _ hb.1

/-- Witness for the amended C1 at the spec's own scenario: reference
instant Wednesday 2024-01-10, token `пн`, time `14.30`. -/
theorem claim_c1_weekday_next_occurrence_witness :
    ∃ r : PyDateTime,
      parse_datetime refInstant "пн" "14.30" = some r ∧
      (⟨r.year, r.month, r.day⟩ : Date) =
        addDays ⟨refInstant.year, refInstant.month, refInstant.day⟩
          (daysAheadFn 0 (pyWeekday refInstant.year refInstant.month refInstant.day)) ∧
      1 ≤ daysAheadFn 0 (pyWeekday refInstant.year refInstant.month refInstant.day) ∧
      daysAheadFn 0 (pyWeekday refInstant.year refInstant.month refInstant.day) ≤ 7 ∧
      dateLt ⟨refInstant.year, refInstant.month, refInstant.day⟩ ⟨r.year, r.month, r.day⟩ ∧
      r.hour = 14 ∧ r.minute = 30 :=
  claim_c1_weekday_next_occurrence refInstant "пн" "14.30" 0 ⟨14, 30⟩ (by decide) (by decide)
    (by decide)

/-- When a string contains no dot, `split('.')` returns just that
string. -/
theorem splitDot_of_no_dot : ∀ l : List Char, l.contains '.' = false → splitDot l = [l] := by
  intro l
  induction l with
  | nil => intro _; rfl
  | cons c rest ih =>
    intro h
    have h2 : ¬('.' = c) ∧ ¬('.' ∈ rest) := by
      simp [List.contains] at h
      exact h
    have hrest : rest.contains '.' = false := by
      simp [List.contains, h2.2]
    have hc : ¬c = '.' := fun he => h2.1 he.symm
    unfold splitDot
    rw [ih hrest]
    simp [hc]

/-- A two-part `split('.')` result can only come from a string that
contains a dot. -/
theorem contains_dot_of_splitDot_pair {l dpart mpart : List Char}
    (hsplit : splitDot l = [dpart, mpart]) : l.contains '.' = true := by
  cases hcont : l.contains '.'
  · rw [splitDot_of_no_dot _ hcont] at hsplit
    exact absurd hsplit (by simp)
  · rfl

/-- C2: for every `D.M` date token that `parse_datetime` accepts, the
inferred year equals the reference year when the parsed `(month, day)`
pair is lexicographically at or after `(reference month, reference
day)`, and the reference year plus one when it is strictly before. -/
theorem claim_c2_dm_year_inference
    (now : PyDateTime) (date_str time_str : String) (r : PyDateTime)
    (dpart mpart : List Char) (d m : Int)
    (hsplit : splitDot (normDate date_str) = [dpart, mpart])
    (hd : pyInt dpart = some d) (hm : pyInt mpart = some m)
    (hr : parse_datetime now date_str time_str = some r) :
    r.year = yearInfer now.year now.month now.day d m := by
  have hdot : (normDate date_str).contains '.' = true :=
    contains_dot_of_splitDot_pair hsplit
  unfold parse_datetime at hr
  cases ht : parseTimeToken time_str with
  | none => rw [ht] at hr; exact Option.noConfusion hr
  | some tm =>
    rw [ht] at hr
    cases hwd : wdLookup (normDate date_str) with
    | some w =>
      have hnd := wdLookup_no_dot hwd
      rw [hnd] at hdot
      exact Bool.noConfusion hdot
    | none =>
      simp only [hwd, hdot, if_true] at hr
      unfold dotDateResolve at hr
      rw [hsplit] at hr
      simp only [hd, hm] at hr
      split_ifs at hr with hvalid
      simp only [Option.some.injEq] at hr
      rw [← hr]

/-- Witness for C2 at the spec's scenario: reference 2024-01-10,
token `9.12`, resolved year 2024. -/
theorem claim_c2_dm_year_inference_witness :
    (⟨2024, 12, 9, 9, 0, 0, false, 3, 0⟩ : PyDateTime).year =
      yearInfer refInstant.year refInstant.month refInstant.day 9 12 :=
  claim_c2_dm_year_inference refInstant "9.12" "9.00" ⟨2024, 12, 9, 9, 0, 0, false, 3, 0⟩
    "9".data "12".data 9 12 (by decide) (by decide) (by decide) (by decide)

/-- C6 counterexample: `parse_datetime` has a hidden dependency on the
wall-clock instant at which it is invoked — it takes only the two
token arguments, reads `datetime.now(tz)` internally, and two calls
with identical token arguments at different wall-clock instants
(Wednesday 2024-01-10 and Monday 2024-01-15) return different
timestamps (2024-01-15 vs 2024-01-22). -/
theorem claim_c6_counterexample :
    parse_datetime ⟨2024, 1, 10, 10, 0, 0, false, 3, 0⟩ "пн" "14.30" ≠
      parse_datetime ⟨2024, 1, 15, 10, 0, 0, false, 3, 0⟩ "пн" "14.30" ∧
    parse_datetime ⟨2024, 1, 10, 10, 0, 0, false, 3, 0⟩ "пн" "14.30" =
      some ⟨2024, 1, 15, 14, 30, 0, false, 3, 0⟩ ∧
    parse_datetime ⟨2024, 1, 15, 10, 0, 0, false, 3, 0⟩ "пн" "14.30" =
      some ⟨2024, 1, 22, 14, 30, 0, false, 3, 0⟩ := by
  decide

/-- C6 (amended): `parse_datetime` is a pure deterministic function of
the two token arguments and the wall-clock instant sampled inside the
call, and it depends on that instant only through its date component:
two calls with the same tokens whose sampled instants fall on the same
calendar date return the same result. -/
theorem claim_c6_determinism_given_sampled_date
    (date_str time_str : String) (now1 now2 : PyDateTime)
    (hy : now1.year = now2.year) (hmo : now1.month = now2.month) (hd : now1.day = now2.day) :
    parse_datetime now1 date_str time_str = parse_datetime now2 date_str time_str := by
  unfold parse_datetime
  rw [hy, hmo, hd]

/-- Witness for the amended C6: two instants on the same date with
different times of day give equal results. -/
theorem claim_c6_determinism_given_sampled_date_witness :
    parse_datetime ⟨2024, 1, 10, 8, 0, 0, false, 3, 0⟩ "пн" "14.30" =
      parse_datetime ⟨2024, 1, 10, 22, 59, 59, false, 3, 0⟩ "пн" "14.30" :=
  claim_c6_determinism_given_sampled_date "пн" "14.30"
    ⟨2024, 1, 10, 8, 0, 0, false, 3, 0⟩ ⟨2024, 1, 10, 22, 59, 59, false, 3, 0⟩ rfl rfl rfl

/-- A store with a single task owned by user 1, for concrete delete
scenarios. -/
def sampleDb : Db := ⟨[⟨5, 1, "Встреча", "2024-01-15T14:30:00+03:00", none⟩], 6⟩

/-- C4 counterexample: `delete_task` invoked by user 2 on id 5, which
belongs to user 1, removes nothing — yet still returns `True`, so the
return value does not report whether a row was removed. -/
theorem claim_c4_counterexample :
    (delete_task true 5 2 sampleDb).2 = true ∧
    (delete_task true 5 2 sampleDb).1 = sampleDb := by
  decide

/-- C4 (amended): `delete_task` removes exactly the rows matching both
id and owner (so a row belonging to a different owner is never removed
and survives unchanged), but its return value is `True`
unconditionally — it does not indicate whether a matching row
existed. -/
theorem claim_c4_owner_scoped_delete (mirrorOk : Bool) (taskId userId : Nat) (db : Db) :
    (delete_task mirrorOk taskId userId db).2 = true ∧
    (delete_task mirrorOk taskId userId db).1.rows =
      db.rows.filter (fun r => !rowMatch taskId userId r) ∧
    ∀ r ∈ db.rows, r.user_id ≠ userId → r ∈ (delete_task mirrorOk taskId userId db).1.rows := by
  refine ⟨rfl, rfl, ?_⟩
  intro r hmem hne
  show r ∈ db.rows.filter _
  rw [List.mem_filter]
  refine ⟨hmem, ?_⟩
  simp [rowMatch]
  exact Or.inr hne

/-- Witness for the amended C4: deleting id 5 as user 2 returns true
while user 1's row survives. -/
theorem claim_c4_owner_scoped_delete_witness :
    (delete_task true 5 2 sampleDb).2 = true ∧
    (⟨5, 1, "Встреча", "2024-01-15T14:30:00+03:00", none⟩ : TaskRow) ∈
      (delete_task true 5 2 sampleDb).1.rows :=
  ⟨(claim_c4_owner_scoped_delete true 5 2 sampleDb).1,
   (claim_c4_owner_scoped_delete true 5 2 sampleDb).2.2 _ (by decide) (by decide)⟩

/-- C9: Calendar Mirror failures are isolated from the local store.
On create, the local row is inserted for every mirror outcome —
including `none`, the outcome of a failed `create_google_event` — and
on delete, the local removal and the `True` return are identical
whatever `delete_google_event` returns. -/
theorem claim_c9_mirror_isolation
    (mirrorOutcome : Option String) (userId : Nat) (description dtStr : String) (db : Db)
    (m1 m2 : Bool) (taskId userId2 : Nat) (db2 : Db) :
    (add_flow mirrorOutcome userId description dtStr db).2.rows =
      db.rows ++ [⟨db.nextId, userId, description, dtStr, mirrorOutcome⟩] ∧
    delete_task m1 taskId userId2 db2 = delete_task m2 taskId userId2 db2 ∧
    (delete_task m1 taskId userId2 db2).2 = true ∧
    (delete_task m1 taskId userId2 db2).1.rows =
      db2.rows.filter (fun r => !rowMatch taskId userId2 r) :=
  ⟨rfl, rfl, rfl, rfl⟩

/-- A store holding one task due one second before and one due one
second after the query instant `2024-01-15T14:30:00.123456` used in
the C5 scenario (stored values carry the `+03:00` offset exactly as
`isoformat` writes them, the query value is the offset-free
`datetime.now().isoformat()` form). -/
def secondDb : Db :=
  ⟨[⟨1, 7, "past", "2024-01-15T14:29:59+03:00", none⟩,
    ⟨2, 7, "future", "2024-01-15T14:30:01+03:00", none⟩], 3⟩

/-- C5: `get_tasks` returns exactly the requesting owner's tasks whose
stored `datetime` text compares strictly greater than the query
instant, in ascending `datetime` order; it returns the empty list (not
an error) when nothing matches; and at second granularity a task due
one second before the query instant is excluded while one due one
second after is included. -/
theorem claim_c5_list_upcoming (userId : Nat) (asOf : String) (db : Db) :
    List.Perm (get_tasks userId asOf db)
      (db.rows.filter fun r => r.user_id == userId && decide (asOf.data < r.datetime.data)) ∧
    List.Sorted dtLe (get_tasks userId asOf db) ∧
    (∀ r ∈ get_tasks userId asOf db, r.user_id = userId ∧ asOf.data < r.datetime.data) ∧
    ((∀ r ∈ db.rows, ¬(r.user_id = userId ∧ asOf.data < r.datetime.data)) →
      get_tasks userId asOf db = []) ∧
    get_tasks 7 "2024-01-15T14:30:00.123456" secondDb =
      [⟨2, 7, "future", "2024-01-15T14:30:01+03:00", none⟩] := by
  refine ⟨List.perm_insertionSort dtLe _, List.sorted_insertionSort dtLe _, ?_, ?_, by decide⟩
  · intro r hr
    rw [get_tasks, List.mem_insertionSort, List.mem_filter] at hr
    have h2 := hr.2
    simp only [Bool.and_eq_true, beq_iff_eq, decide_eq_true_eq] at h2
    exact h2
  · intro hnone
    have hfil : (db.rows.filter fun r =>
        r.user_id == userId && decide (asOf.data < r.datetime.data)) = [] := by
      rw [List.filter_eq_nil_iff]
      intro r hrmem
      simp only [Bool.and_eq_true, beq_iff_eq, decide_eq_true_eq]
      exact fun hcontra => hnone r hrmem hcontra
    rw [get_tasks, hfil]
    rfl

/-- Witness for C5 instantiated at the one-second scenario store. -/
theorem claim_c5_list_upcoming_witness :
    (⟨2, 7, "future", "2024-01-15T14:30:01+03:00", none⟩ : TaskRow).user_id = 7 ∧
    "2024-01-15T14:30:00.123456".data <
      "2024-01-15T14:30:01+03:00".data ∧
    get_tasks 7 "2024-01-15T14:30:00.123456" secondDb =
      [⟨2, 7, "future", "2024-01-15T14:30:01+03:00", none⟩] := by
  have h := claim_c5_list_upcoming 7 "2024-01-15T14:30:00.123456" secondDb
  have hm := h.2.2.1 ⟨2, 7, "future", "2024-01-15T14:30:01+03:00", none⟩ (by decide)
  exact ⟨hm.1, hm.2, h.2.2.2.2⟩

/-- A store holding one task for each of two distinct owners, for the
cross-owner scenarios. -/
def twoOwnerDb : Db :=
  ⟨[⟨1, 1, "mine", "2024-01-15T14:30:00+03:00", none⟩,
    ⟨2, 2, "theirs", "2024-01-16T10:00:00+03:00", some "evt1"⟩], 3⟩

/-- C8: every store read and mutation is owner-scoped — for any two
distinct owners, `get_task_by_id` never returns another owner's row,
`get_tasks` never lists one, and `delete_task` never removes one. -/
theorem claim_c8_owner_scoping
    (db : Db) (taskId userId otherId : Nat) (asOf : String) (mirrorOk : Bool)
    (hne : userId ≠ otherId) :
    (∀ r, get_task_by_id taskId userId db = some r → r.user_id ≠ otherId) ∧
    (∀ r ∈ get_tasks userId asOf db, r.user_id ≠ otherId) ∧
    (∀ r ∈ db.rows, r.user_id = otherId →
      r ∈ (delete_task mirrorOk taskId userId db).1.rows) := by
  refine ⟨?_, ?_, ?_⟩
  · intro r hfind
    have hp := List.find?_some hfind
    simp only [rowMatch, Bool.and_eq_true, beq_iff_eq] at hp
    rw [hp.2]
    exact hne
  · intro r hr
    rw [get_tasks, List.mem_insertionSort, List.mem_filter] at hr
    have h2 := hr.2
    simp only [Bool.and_eq_true, beq_iff_eq, decide_eq_true_eq] at h2
    rw [h2.1]
    exact hne
  · intro r hrmem hrowner
    show r ∈ db.rows.filter _
    rw [List.mem_filter]
    refine ⟨hrmem, ?_⟩
    simp [rowMatch]
    right
    rw [hrowner]
    exact fun h => hne h.symm

/-- Witness for C8 on the two-owner store: owner 1's lookups see only
owner 1's task, and owner 2's task survives owner 1's delete. -/
theorem claim_c8_owner_scoping_witness :
    (⟨1, 1, "mine", "2024-01-15T14:30:00+03:00", none⟩ : TaskRow).user_id ≠ 2 ∧
    (⟨1, 1, "mine", "2024-01-15T14:30:00+03:00", none⟩ : TaskRow).user_id ≠ 2 ∧
    (⟨2, 2, "theirs", "2024-01-16T10:00:00+03:00", some "evt1"⟩ : TaskRow) ∈
      (delete_task true 1 1 twoOwnerDb).1.rows :=
  ⟨(claim_c8_owner_scoping twoOwnerDb 1 1 2 "2024-01-01T00:00:00" true (by decide)).1
      _ (by decide),
   (claim_c8_owner_scoping twoOwnerDb 1 1 2 "2024-01-01T00:00:00" true (by decide)).2.1
      _ (by decide),
   (claim_c8_owner_scoping twoOwnerDb 1 1 2 "2024-01-01T00:00:00" true (by decide)).2.2
      _ (by decide) (by decide)⟩

/-- Rendering a digit value below 10 yields an ASCII digit character. -/
theorem isDigitCh_ofNat_digit : ∀ k : Nat, k < 10 → isDigitCh (Char.ofNat (48 + k)) = true := by
  decide

/-- Reading back a rendered digit value below 10 recovers it. -/
theorem dval_ofNat_digit : ∀ k : Nat, k < 10 → dval (Char.ofNat (48 + k)) = k := by
  decide

/-- `fromisoformat` inverts `isoformat` exactly on every value whose
fields are in the ranges `datetime` guarantees (year below 10000, the
two-digit fields below 100): serialization loses no precision and
preserves the offset. -/
theorem fromisoformat_isoformat (dt : PyDateTime)
    (hy : dt.year < 10000) (hmo : dt.month < 100) (hd : dt.day < 100) (hh : dt.hour < 100)
    (hmi : dt.minute < 100) (hs : dt.second < 100) (hoh : dt.offH < 100)
    (hom : dt.offM < 100) :
    fromisoformat (isoformat dt) = some dt := by
  obtain ⟨y, mo, d, h, mi, s, oneg, oh, om⟩ := dt
  simp only at hy hmo hd hh hmi hs hoh hom
  have ey1 := isDigitCh_ofNat_digit (y / 1000) (by omega)
  have ey2 := isDigitCh_ofNat_digit (y / 100 % 10) (by omega)
  have ey3 := isDigitCh_ofNat_digit (y / 10 % 10) (by omega)
  have ey4 := isDigitCh_ofNat_digit (y % 10) (by omega)
  have emo1 := isDigitCh_ofNat_digit (mo / 10) (by omega)
  have emo2 := isDigitCh_ofNat_digit (mo % 10) (by omega)
  have ed1 := isDigitCh_ofNat_digit (d / 10) (by omega)
  have ed2 := isDigitCh_ofNat_digit (d % 10) (by omega)
  have eh1 := isDigitCh_ofNat_digit (h / 10) (by omega)
  have eh2 := isDigitCh_ofNat_digit (h % 10) (by omega)
  have emi1 := isDigitCh_ofNat_digit (mi / 10) (by omega)
  have emi2 := isDigitCh_ofNat_digit (mi % 10) (by omega)
  have es1 := isDigitCh_ofNat_digit (s / 10) (by omega)
  have es2 := isDigitCh_ofNat_digit (s % 10) (by omega)
  have eo1 := isDigitCh_ofNat_digit (oh / 10) (by omega)
  have eo2 := isDigitCh_ofNat_digit (oh % 10) (by omega)
  have eo3 := isDigitCh_ofNat_digit (om / 10) (by omega)
  have eo4 := isDigitCh_ofNat_digit (om % 10) (by omega)
  have vy1 := dval_ofNat_digit (y / 1000) (by omega)
  have vy2 := dval_ofNat_digit (y / 100 % 10) (by omega)
  have vy3 := dval_ofNat_digit (y / 10 % 10) (by omega)
  have vy4 := dval_ofNat_digit (y % 10) (by omega)
  have vmo1 := dval_ofNat_digit (mo / 10) (by omega)
  have vmo2 := dval_ofNat_digit (mo % 10) (by omega)
  have vd1 := dval_ofNat_digit (d / 10) (by omega)
  have vd2 := dval_ofNat_digit (d % 10) (by omega)
  have vh1 := dval_ofNat_digit (h / 10) (by omega)
  have vh2 := dval_ofNat_digit (h % 10) (by omega)
  have vmi1 := dval_ofNat_digit (mi / 10) (by omega)
  have vmi2 := dval_ofNat_digit (mi % 10) (by omega)
  have vs1 := dval_ofNat_digit (s / 10) (by omega)
  have vs2 := dval_ofNat_digit (s % 10) (by omega)
  have vo1 := dval_ofNat_digit (oh / 10) (by omega)
  have vo2 := dval_ofNat_digit (oh % 10) (by omega)
  have vo3 := dval_ofNat_digit (om / 10) (by omega)
  have vo4 := dval_ofNat_digit (om % 10) (by omega)
  cases oneg <;>
    · simp only [isoformat, pad4, pad2, List.cons_append, List.nil_append, Bool.false_eq_true,
        if_false, if_true, fromisoformat]
      simp only [ey1, ey2, ey3, ey4, emo1, emo2, ed1, ed2, eh1, eh2, emi1, emi2, es1, es2,
        eo1, eo2, eo3, eo4, vy1, vy2, vy3, vy4, vmo1, vmo2, vd1, vd2, vh1, vh2, vmi1, vmi2,
        vs1, vs2, vo1, vo2, vo3, vo4]
      simp only [show (('-' : Char) == '-') = true from rfl,
        show (('+' : Char) == '-') = false from rfl,
        show (('+' : Char) == '+') = true from rfl,
        show (('T' : Char) == 'T') = true from rfl,
        show ((':' : Char) == ':') = true from rfl,
        Bool.and_true, Bool.true_and, Bool.or_true, Bool.true_or, Bool.and_self,
        Bool.or_false, Bool.false_or, if_true, true_and, and_true,
        Option.some.injEq, PyDateTime.mk.injEq]
      omega

/-- C7: a successful `add_task` followed by `get_task_by_id` on the
returned id and the same owner yields the inserted row: the
description is identical and the stored `datetime` text is exactly
`isoformat dt`, which `fromisoformat` maps back to `dt` with no
precision loss and the offset preserved.  The freshness hypothesis is
the `AUTOINCREMENT` guarantee that the new id is unused. -/
theorem claim_c7_create_get_round_trip
    (db : Db) (userId : Nat) (description : String) (dt : PyDateTime) (gid : Option String)
    (hfresh : ∀ r ∈ db.rows, r.id ≠ db.nextId)
    (hy : dt.year < 10000) (hmo : dt.month < 100) (hd : dt.day < 100) (hh : dt.hour < 100)
    (hmi : dt.minute < 100) (hs : dt.second < 100) (hoh : dt.offH < 100)
    (hom : dt.offM < 100) :
    get_task_by_id (add_task userId description (isoformat dt) gid db).1 userId
        (add_task userId description (isoformat dt) gid db).2 =
      some ⟨db.nextId, userId, description, isoformat dt, gid⟩ ∧
    fromisoformat (isoformat dt) = some dt := by
  refine ⟨?_, fromisoformat_isoformat dt hy hmo hd hh hmi hs hoh hom⟩
  show List.find? (rowMatch db.nextId userId)
      (db.rows ++ [⟨db.nextId, userId, description, isoformat dt, gid⟩]) =
    some ⟨db.nextId, userId, description, isoformat dt, gid⟩
  rw [List.find?_append]
  have hnone : db.rows.find? (rowMatch db.nextId userId) = none := by
    rw [List.find?_eq_none]
    intro r hr
    simp only [rowMatch, Bool.and_eq_true, beq_iff_eq]
    exact fun hcontra => hfresh r hr hcontra.1
  rw [hnone]
  simp [List.find?, rowMatch]

/-- Witness for C7: insert into the empty store and read back. -/
theorem claim_c7_create_get_round_trip_witness :
    get_task_by_id
        (add_task 7 "Встреча" (isoformat ⟨2024, 1, 15, 14, 30, 0, false, 3, 0⟩) none ⟨[], 1⟩).1 7
        (add_task 7 "Встреча" (isoformat ⟨2024, 1, 15, 14, 30, 0, false, 3, 0⟩) none ⟨[], 1⟩).2 =
      some ⟨1, 7, "Встреча", isoformat ⟨2024, 1, 15, 14, 30, 0, false, 3, 0⟩, none⟩ ∧
    fromisoformat (isoformat ⟨2024, 1, 15, 14, 30, 0, false, 3, 0⟩) =
      some ⟨2024, 1, 15, 14, 30, 0, false, 3, 0⟩ :=
  claim_c7_create_get_round_trip ⟨[], 1⟩ 7 "Встреча" ⟨2024, 1, 15, 14, 30, 0, false, 3, 0⟩ none
    (by intro r hr; exact absurd hr (List.not_mem_nil r))
    (by decide) (by decide) (by decide) (by decide) (by decide) (by decide) (by decide) (by decide)

/-- An hour value rendered the way the spec's examples write it: one
digit below 10, two digits otherwise. -/
def hourRender (h : Nat) : List Char :=
  if h < 10 then [Char.ofNat (48 + h)] else pad2 h

/-- C10: a time token of the form `H.M` or `H:M` with a single-digit
minute field is accepted, and the minute digit is read as a count of
minutes — `14.3` resolves to 14:03, not to 14:30 and not to a
rejection — because the normalised string is parsed with a minute
field accepting one or two digits. -/
theorem claim_c10_single_digit_minute (h m : Nat) (sep : Char)
    (hh : h ≤ 23) (hm : m ≤ 9) (hsep : sep = '.' ∨ sep = ':') :
    parseTimeToken ⟨hourRender h ++ [sep, Char.ofNat (48 + m)]⟩ = some ⟨h, m⟩ ∧
    parse_datetime refInstant "пн" "14.3" = some ⟨2024, 1, 15, 14, 3, 0, false, 3, 0⟩ := by
  refine ⟨?_, by decide⟩
  have key : ∀ h2 : Nat, h2 < 24 → ∀ m2 : Nat, m2 < 10 →
      parseTimeToken ⟨hourRender h2 ++ ['.', Char.ofNat (48 + m2)]⟩ = some ⟨h2, m2⟩ ∧
      parseTimeToken ⟨hourRender h2 ++ [':', Char.ofNat (48 + m2)]⟩ = some ⟨h2, m2⟩ := by
    decide
  rcases hsep with h1 | h1 <;> subst h1
  · exact (key h (by omega) m (by omega)).1
  · exact (key h (by omega) m (by omega)).2

/-- Witness for C10 at the token `14.3`. -/
theorem claim_c10_single_digit_minute_witness :
    parseTimeToken ⟨hourRender 14 ++ ['.', Char.ofNat (48 + 3)]⟩ = some ⟨14, 3⟩ ∧
    parse_datetime refInstant "пн" "14.3" = some ⟨2024, 1, 15, 14, 3, 0, false, 3, 0⟩ :=
  claim_c10_single_digit_minute 14 3 '.' (by decide) (by decide) (Or.inl rfl)

/-- Classification of a character for the time-token normalisation:
either it is a separator (dot or colon, both of which the parser sees
as a colon after `replace('.', ':')`), or it is untouched by the
normalisation and is neither separator. -/
theorem char_facts (c : Char) :
    (isColonCh (repCh c) = true ∧ isDigitCh (repCh c) = false ∧ isDigitCh c = false ∧
       isSepCh c = true) ∨
    (repCh c = c ∧ isColonCh c = false ∧ isSepCh c = false) := by
  unfold isColonCh repCh isDigitCh isSepCh
  by_cases h1 : c.toNat = 46
  · left; simp [h1]
  · by_cases h2 : c.toNat = 58
    · left; simp [h1, h2]
    · right; simp [h1, h2]

/-- The colon character is not a digit. -/
theorem litDigitColon : isDigitCh ':' = false := by decide

/-- The zero character is a digit. -/
theorem litDigitZero : isDigitCh '0' = true := by decide

/-- The colon character passes the colon test. -/
theorem litColonColon : isColonCh ':' = true := by decide

/-- The zero character fails the colon test. -/
theorem litColonZero : isColonCh '0' = false := by decide

/-- The zero character has digit value zero. -/
theorem litDvalZero : dval '0' = 0 := by decide

/-- The `%H` field consumes at most two characters. -/
theorem parseHourField_consumes :
    ∀ l : List Char, ∀ h : Nat, ∀ r : List Char,
      parseHourField l = some (h, r) → l.length ≤ r.length + 2 := by
  intro l h r hp
  match l with
  | [] => exact absurd hp (by simp [parseHourField])
  | [c1] =>
    simp only [parseHourField] at hp
    split_ifs at hp
    simp only [Option.some.injEq, Prod.mk.injEq] at hp
    rw [← hp.2]
    simp
  | c1 :: c2 :: rest =>
    simp only [parseHourField] at hp
    split_ifs at hp <;> simp only [Option.some.injEq, Prod.mk.injEq] at hp <;>
      rw [← hp.2] <;> simp

/-- The `%M` field consumes at most two characters. -/
theorem parseMinuteField_consumes :
    ∀ l : List Char, ∀ h : Nat, ∀ r : List Char,
      parseMinuteField l = some (h, r) → l.length ≤ r.length + 2 := by
  intro l h r hp
  match l with
  | [] => exact absurd hp (by simp [parseMinuteField])
  | [c1] =>
    simp only [parseMinuteField] at hp
    split_ifs at hp
    simp only [Option.some.injEq, Prod.mk.injEq] at hp
    rw [← hp.2]
    simp
  | c1 :: c2 :: rest =>
    simp only [parseMinuteField] at hp
    split_ifs at hp <;> simp only [Option.some.injEq, Prod.mk.injEq] at hp <;>
      rw [← hp.2] <;> simp

/-- A successful `%H:%M` parse consumes the whole string, so the
string has at most five characters. -/
theorem strptimeHM_length {l : List Char} {t : Tod} (hp : strptimeHM l = some t) :
    l.length ≤ 5 := by
  unfold strptimeHM at hp
  cases hh : parseHourField l with
  | none => rw [hh] at hp; exact Option.noConfusion hp
  | some pr =>
    obtain ⟨h, rest⟩ := pr
    rw [hh] at hp
    have h1 := parseHourField_consumes l h rest hh
    cases rest with
    | nil => exact Option.noConfusion hp
    | cons c rest2 =>
      simp only at hp
      split_ifs at hp
      cases hm : parseMinuteField rest2 with
      | none => rw [hm] at hp; exact Option.noConfusion hp
      | some pm =>
        obtain ⟨m, rest3⟩ := pm
        rw [hm] at hp
        have h2 := parseMinuteField_consumes rest2 m rest3 hm
        simp only at hp
        split_ifs at hp with he
        have : rest3 = [] := by
          cases rest3
          · rfl
          · exact absurd he (by simp)
        subst this
        simp at h1 h2
        omega

/-- Normalisation never shortens the time token. -/
theorem normTime_length (l : List Char) : l.length ≤ (normTime l).length := by
  simp only [normTime]
  split_ifs <;> simp

set_option maxHeartbeats 3000000 in
/-- The time-token handling of `parse_datetime` succeeds on exactly
the tokens of the spec's time grammar: a 1-2 digit hour below 24, or
such an hour followed by a dot-or-colon separator and a 1-2 digit
minute below 60. -/
theorem parseTime_iff_grammar :
    ∀ l : List Char, (strptimeHM (normTime l)).isSome = specTimeGrammar l := by
  intro l
  match l with
  | [] => rfl
  | [a] =>
    rcases char_facts a with ⟨ha1, ha2, ha3, ha4⟩ | ⟨ha1, ha2, ha3⟩ <;>
      simp_all [normTime, strptimeHM, parseHourField, parseMinuteField, specTimeGrammar,
        litDigitColon, litDigitZero, litColonColon, litColonZero, litDvalZero] <;>
      (try (split_ifs <;> simp_all [litDigitColon, litDigitZero, litColonColon, litColonZero,
        litDvalZero])) <;>
      (try (split_ifs <;> simp_all [litDigitColon, litDigitZero, litColonColon, litColonZero,
        litDvalZero])) <;>
      (try (split_ifs <;> simp_all [litDigitColon, litDigitZero, litColonColon, litColonZero,
        litDvalZero])) <;>
      try omega
  | [a, b] =>
    rcases char_facts a with ⟨ha1, ha2, ha3, ha4⟩ | ⟨ha1, ha2, ha3⟩ <;>
      rcases char_facts b with ⟨hb1, hb2, hb3, hb4⟩ | ⟨hb1, hb2, hb3⟩ <;>
      simp_all [normTime, strptimeHM, parseHourField, parseMinuteField, specTimeGrammar,
        litDigitColon, litDigitZero, litColonColon, litColonZero, litDvalZero] <;>
      (try (split_ifs <;> simp_all [litDigitColon, litDigitZero, litColonColon, litColonZero,
        litDvalZero])) <;>
      (try (split_ifs <;> simp_all [litDigitColon, litDigitZero, litColonColon, litColonZero,
        litDvalZero])) <;>
      (try (split_ifs <;> simp_all [litDigitColon, litDigitZero, litColonColon, litColonZero,
        litDvalZero])) <;>
      try omega
  | [a, b, c] =>
    rcases char_facts a with ⟨ha1, ha2, ha3, ha4⟩ | ⟨ha1, ha2, ha3⟩ <;>
      rcases char_facts b with ⟨hb1, hb2, hb3, hb4⟩ | ⟨hb1, hb2, hb3⟩ <;>
      rcases char_facts c with ⟨hc1, hc2, hc3, hc4⟩ | ⟨hc1, hc2, hc3⟩ <;>
      simp_all [normTime, strptimeHM, parseHourField, parseMinuteField, specTimeGrammar,
        litDigitColon, litDigitZero, litColonColon, litColonZero, litDvalZero] <;>
      (try (split_ifs <;> simp_all [litDigitColon, litDigitZero, litColonColon, litColonZero,
        litDvalZero])) <;>
      (try (split_ifs <;> simp_all [litDigitColon, litDigitZero, litColonColon, litColonZero,
        litDvalZero])) <;>
      (try (split_ifs <;> simp_all [litDigitColon, litDigitZero, litColonColon, litColonZero,
        litDvalZero])) <;>
      try omega
  | [a, b, c, d] =>
    rcases char_facts a with ⟨ha1, ha2, ha3, ha4⟩ | ⟨ha1, ha2, ha3⟩ <;>
      rcases char_facts b with ⟨hb1, hb2, hb3, hb4⟩ | ⟨hb1, hb2, hb3⟩ <;>
      rcases char_facts c with ⟨hc1, hc2, hc3, hc4⟩ | ⟨hc1, hc2, hc3⟩ <;>
      rcases char_facts d with ⟨hd1, hd2, hd3, hd4⟩ | ⟨hd1, hd2, hd3⟩ <;>
      simp_all [normTime, strptimeHM, parseHourField, parseMinuteField, specTimeGrammar,
        litDigitColon, litDigitZero, litColonColon, litColonZero, litDvalZero] <;>
      (try (split_ifs <;> simp_all [litDigitColon, litDigitZero, litColonColon, litColonZero,
        litDvalZero])) <;>
      (try (split_ifs <;> simp_all [litDigitColon, litDigitZero, litColonColon, litColonZero,
        litDvalZero])) <;>
      (try (split_ifs <;> simp_all [litDigitColon, litDigitZero, litColonColon, litColonZero,
        litDvalZero])) <;>
      try omega
  | [a, b, c, d, e] =>
    rcases char_facts a with ⟨ha1, ha2, ha3, ha4⟩ | ⟨ha1, ha2, ha3⟩ <;>
      rcases char_facts b with ⟨hb1, hb2, hb3, hb4⟩ | ⟨hb1, hb2, hb3⟩ <;>
      rcases char_facts c with ⟨hc1, hc2, hc3, hc4⟩ | ⟨hc1, hc2, hc3⟩ <;>
      rcases char_facts d with ⟨hd1, hd2, hd3, hd4⟩ | ⟨hd1, hd2, hd3⟩ <;>
      rcases char_facts e with ⟨he1, he2, he3, he4⟩ | ⟨he1, he2, he3⟩ <;>
      simp_all [normTime, strptimeHM, parseHourField, parseMinuteField, specTimeGrammar,
        litDigitColon, litDigitZero, litColonColon, litColonZero, litDvalZero] <;>
      (try (split_ifs <;> simp_all [litDigitColon, litDigitZero, litColonColon, litColonZero,
        litDvalZero])) <;>
      (try (split_ifs <;> simp_all [litDigitColon, litDigitZero, litColonColon, litColonZero,
        litDvalZero])) <;>
      (try (split_ifs <;> simp_all [litDigitColon, litDigitZero, litColonColon, litColonZero,
        litDvalZero])) <;>
      try omega
  | a :: b :: c :: d :: e :: f :: rest =>
    have hspec : specTimeGrammar (a :: b :: c :: d :: e :: f :: rest) = false := rfl
    rw [hspec]
    cases hx : strptimeHM (normTime (a :: b :: c :: d :: e :: f :: rest)) with
    | none => rfl
    | some t =>
      have h1 := strptimeHM_length hx
      have h2 := normTime_length (a :: b :: c :: d :: e :: f :: rest)
      simp at h2
      omega

/-- C3 counterexample: the date token `9.012` matches neither the
weekday grammar nor the spec's `D.M` grammar (its month field has
three digits), yet `parse_datetime` accepts the pair
(`9.012`, `9.00`) instead of failing with `InvalidFormat` — Python's
`int()` tolerates leading zeros (and signs and inner padding), so the
accepted date tokens are strictly broader than the `D.M` grammar. -/
theorem claim_c3_counterexample :
    (parse_datetime refInstant "9.012" "9.00").isSome = true ∧
    specDMGrammar "9.012".data = false ∧
    (wdLookup (normDate "9.012")).isSome = false ∧
    parse_datetime refInstant "9.012" "9.00" =
      some ⟨2024, 12, 9, 9, 0, 0, false, 3, 0⟩ := by
  decide

/-- C3 (amended): `parse_datetime` fails exactly when the time token
is outside the time grammar (1-2 digit hour below 24, optional
dot-or-colon separator plus 1-2 digit minute below 60) or the date
token is not accepted — that is, it is neither a weekday name whose
1-7 day advance stays within `datetime`'s range (the addition
overflows past 9999-12-31 otherwise and the call fails) nor a
dot-containing token whose `int()`-parsed day and month (a strictly
broader set than the 1-2-digit `D.M` grammar, tolerating leading
zeros, signs and surrounding whitespace in the fields) name a valid
calendar date in the inferred year. -/
theorem claim_c3_invalid_format_characterisation
    (now : PyDateTime) (date_str time_str : String) :
    (parse_datetime now date_str time_str).isSome =
      (specTimeGrammar time_str.data && dateTokenAccepted now date_str) := by
  have htime : (parseTimeToken time_str).isSome = specTimeGrammar time_str.data :=
    parseTime_iff_grammar time_str.data
  unfold parse_datetime dateTokenAccepted
  cases ht : parseTimeToken time_str with
  | none =>
    rw [ht] at htime
    simp only [Option.isSome_none, Bool.false_eq] at htime
    simp [← htime]
  | some tm =>
    rw [ht] at htime
    simp only [Option.isSome_some, Bool.true_eq] at htime
    cases hwd : wdLookup (normDate date_str) with
    | some w =>
      by_cases hc : (addDays ⟨now.year, now.month, now.day⟩
          (daysAheadFn w (pyWeekday now.year now.month now.day))).year ≤ 9999
      · simp [hwd, hc, ← htime]
      · simp [hwd, hc]
    | none =>
      simp only [hwd, Option.isSome_none, Bool.false_or]
      by_cases hdot : (normDate date_str).contains '.'
      · simp only [hdot, Bool.true_and, if_true]
        cases hdd : dotDateResolve now.year now.month now.day (normDate date_str) with
        | none => simp [hdd]
        | some td => simp [hdd, ← htime]
      · have hdot2 : ¬('.' ∈ normDate date_str) := by
          simpa [List.contains] using hdot
        simp [hdot, hdot2]
